import Mathlib

/-
Shallow embedding of the financial-query-system backend (query translation,
tenant-isolation enforcement, execution, caching pipeline).

Sources embedded:
  - langchain/queryChain.js : injectUserId, executeQuery
  - services/queryService.js : processQuery (orchestrator)
  - services/cacheService.js : generateCacheKey, getCachedResponse, cacheResponse
  - routes/query.js : the /query request validation
  - config/index.js : cache configuration flags

Modelling conventions:
  - JS values relevant to the pipeline are modelled by the inductive `Value`
    (strings, numbers, booleans, null) with JS truthiness.
  - JS objects (query filters, rows) are association lists `Obj` with
    first-occurrence lookup; parsed JSON has unique keys so this is faithful.
  - Aggregation stages are either a $match stage (filters rows) or some other
    row-set-preserving stage (e.g. $sort); stages that transform rows are not
    modelled, matching the spec's scope of point lookup / filtered list /
    match-prefixed pipelines.
  - Mongo projection is presentation-only and is not applied to rows.
  - The md5 content hash (an external crypto primitive, not repository code)
    is an explicit function parameter `hash : List Char → List Char`.
-/

namespace Assignment

/-- JS runtime values as far as the pipeline inspects them. -/
inductive Value where
  | vStr (s : String)
  | vNum (n : Int)
  | vBool (b : Bool)
  | vNull
deriving DecidableEq, Repr

/-- JS truthiness of a `Value`. -/
def Value.truthy : Value → Bool
  | .vStr s => !(s == "")
  | .vNum n => !(n == 0)
  | .vBool b => b
  | .vNull => false

/-- A JS object as seen by the pipeline: an association list of fields. -/
abbrev Obj := List (String × Value)

/-- JS property access `o.k` (unique keys in parsed JSON: first match). -/
def objGet (k : String) : Obj → Option Value
  | [] => none
  | (k1, v) :: rest => if k1 = k then some v else objGet k rest

/-- Truthiness of `o.k` where the property may be absent (absent = undefined,
falsy). -/
def truthyOpt : Option Value → Bool
  | none => false
  | some v => v.truthy

/-- A document-store row. -/
abbrev Row := Obj

/-- One aggregation-pipeline stage: a $match stage, or any other stage that
does not change the set of rows (e.g. $sort). -/
inductive Stage where
  | smatch (f : Obj)
  | sother
deriving DecidableEq, Repr

/-- The StructuredQuery produced by the translation collaborator
(queryChain.js calls it `queryDef`): collection, operation, `query` filter,
projection, aggregation pipeline.  All parts are untrusted. -/
structure QueryDef where
  collection : String
  operation : String
  query : Option Obj
  projection : Option Obj
  pipeline : Option (List Stage)
deriving DecidableEq, Repr

/-- queryChain.js: the `hasUserMatch` test inside injectUserId —
`pipeline.length > 0 && pipeline[0].$match && pipeline[0].$match.user_id`. -/
def hasUserMatch : List Stage → Bool
  | .smatch f :: _ => truthyOpt (objGet "user_id" f)
  | _ => false

/-- queryChain.js: `{ ...query, user_id: userId }` — spread merge with the
`user_id` field set to the context user id. -/
def mergeUserId (f : Obj) (userId : String) : Obj :=
  f.filter (fun kv => !(kv.1 == "user_id")) ++ [("user_id", Value.vStr userId)]

/-- queryChain.js `injectUserId(queryDef, userId)`: the Tenant Isolation
Guard.  Skips the users collection; for aggregate with a (truthy) pipeline
prepends a `$match {user_id}` stage unless the first stage already is a
$match with a truthy `user_id`; for find/findOne merges `user_id` into the
filter when the filter is absent or its `user_id` is falsy. -/
def injectUserId (queryDef : QueryDef) (userId : String) : QueryDef :=
  if queryDef.collection = "users" then
    queryDef
  else if queryDef.operation = "aggregate" then
    match queryDef.pipeline with
    | none => queryDef
    | some pipeline =>
      if hasUserMatch pipeline then queryDef
      else { queryDef with
             pipeline := some (Stage.smatch [("user_id", Value.vStr userId)] :: pipeline) }
  else if queryDef.operation = "find" ∨ queryDef.operation = "findOne" then
    match queryDef.query with
    | none => { queryDef with query := some (mergeUserId [] userId) }
    | some q =>
      if truthyOpt (objGet "user_id" q) then queryDef
      else { queryDef with query := some (mergeUserId q userId) }
  else
    queryDef

/-- Mongo equality-match semantics for a filter object against a row:
every filter field must be present in the row with the same value. -/
def matchesFilter (f : Obj) (r : Row) : Bool :=
  f.all (fun kv => decide (objGet kv.1 r = some kv.2))

/-- Run one aggregation stage over the current rows. -/
def runStage (rs : List Row) : Stage → List Row
  | .smatch f => rs.filter (matchesFilter f)
  | .sother => rs

/-- Run an aggregation pipeline over the rows of a collection. -/
def runPipeline (p : List Stage) (rs : List Row) : List Row :=
  p.foldl runStage rs

/-- queryChain.js `allowedCollections`. -/
def allowedCollections : List String :=
  ["users", "bank_transactions", "mutual_fund_holdings", "equity_holdings"]

/-- The tenant-owned collections (every allow-listed collection but users). -/
def tenantOwnedCollections : List String :=
  ["bank_transactions", "mutual_fund_holdings", "equity_holdings"]

/-- Errors thrown by executeQuery. -/
inductive ExecError where
  | invalidCollection (c : String)
  | unsupportedOperation (op : String)
deriving DecidableEq, Repr

/-- Result of executeQuery: a row list (find/aggregate) or a single optional
row (findOne). -/
inductive ExecResult where
  | rows (rs : List Row)
  | row (r : Option Row)
deriving DecidableEq, Repr

/-- The rows carried by an ExecResult. -/
def resultRows : ExecResult → List Row
  | .rows rs => rs
  | .row none => []
  | .row (some r) => [r]

/-- The document store: rows per collection name. -/
abbrev Store := String → List Row

/-- queryChain.js `executeQuery(queryDef)`: rejects non-allow-listed
collections, then dispatches on the operation (find / findOne / aggregate),
throwing for any other operation.  `query || {}` and `pipeline || []`
become `Option.getD`. -/
def executeQuery (store : Store) (queryDef : QueryDef) : Except ExecError ExecResult :=
  if queryDef.collection ∈ allowedCollections then
    if queryDef.operation = "find" then
      .ok (.rows ((store queryDef.collection).filter (matchesFilter (queryDef.query.getD []))))
    else if queryDef.operation = "findOne" then
      .ok (.row (((store queryDef.collection).filter (matchesFilter (queryDef.query.getD []))).head?))
    else if queryDef.operation = "aggregate" then
      .ok (.rows (runPipeline (queryDef.pipeline.getD []) (store queryDef.collection)))
    else
      .error (.unsupportedOperation queryDef.operation)
  else
    .error (.invalidCollection queryDef.collection)

/-! ## Cache key derivation (cacheService.js / queryService.js) -/

/-- JS `String.prototype.trim` on a character list: drop whitespace at both
ends. -/
def jsTrim (l : List Char) : List Char :=
  ((l.dropWhile Char.isWhitespace).reverse.dropWhile Char.isWhitespace).reverse

/-- JS `replace(/\s+/g, ' ')` on a character list: each maximal run of
whitespace becomes a single space.  The boolean records whether the previous
character was whitespace. -/
def collapseWS : Bool → List Char → List Char
  | _, [] => []
  | prevWS, c :: rest =>
    if c.isWhitespace then
      if prevWS then collapseWS true rest
      else ' ' :: collapseWS true rest
    else c :: collapseWS false rest

/-- cacheService.js `generateCacheKey` normalization:
`question.toLowerCase().trim().replace(/\s+/g, ' ')`. -/
def normalizeChars (l : List Char) : List Char :=
  collapseWS false (jsTrim (l.map Char.toLower))

/-- cacheService.js `generateCacheKey(question)`:
`query:` followed by the content hash of the normalized question.  The md5
hash (an external crypto primitive) is a function parameter. -/
def generateCacheKey (hash : List Char → List Char) (question : String) : List Char :=
  "query:".data ++ hash (normalizeChars question.data)

/-- queryService.js `processQuery`: the user-specific cache key handed to the
cache service is the string interpolation `userId:question`. -/
def orchestratorCacheKey (userId question : String) : String :=
  userId ++ ":" ++ question

/-- The cache-store key actually used for a request: generateCacheKey applied
to the orchestrator's `userId:question` string. -/
def cacheKeyFor (hash : List Char → List Char) (userId question : String) : List Char :=
  generateCacheKey hash (orchestratorCacheKey userId question)

/-- config/index.js cache settings. -/
structure CacheConfig where
  enabled : Bool
  ttl : Nat
deriving DecidableEq, Repr

/-- The Redis store as the pipeline sees it: unreachable (`isRedisConnected`
false, or every command throwing — caught by the service), or reachable with
a key-value table.  TTL expiry is server-side and not modelled. -/
inductive CacheBackend (α : Type) where
  | unreachable
  | reachable (entries : List (List Char × α))
deriving DecidableEq, Repr

/-- cacheService.js `getCachedResponse(question)`: none when caching is
disabled or Redis is unreachable (the catch branch also returns null),
otherwise the stored value under the generated key. -/
def getCachedResponse (hash : List Char → List Char) (cfg : CacheConfig)
    (backend : CacheBackend α) (question : String) : Option α :=
  if cfg.enabled then
    match backend with
    | .unreachable => none
    | .reachable entries => entries.lookup (generateCacheKey hash question)
  else none

/-- cacheService.js `cacheResponse(question, response)`: a no-op when caching
is disabled or Redis is unreachable (errors are caught, never thrown),
otherwise `setEx` stores the value under the generated key. -/
def cacheResponse (hash : List Char → List Char) (cfg : CacheConfig)
    (backend : CacheBackend α) (question : String) (response : α) : CacheBackend α :=
  if cfg.enabled then
    match backend with
    | .unreachable => backend
    | .reachable entries => .reachable ((generateCacheKey hash question, response) :: entries)
  else backend

/-! ## Orchestrator (queryService.js, queryChain.js) -/

/-- The QueryResult assembled by processNaturalLanguageQuery: question, user,
synthesized answer, executed (guard-rewritten) query, retrieved rows. -/
structure QueryResult where
  question : String
  userId : String
  userName : String
  answer : String
  queryExecuted : QueryDef
  dataRetrieved : ExecResult
deriving DecidableEq, Repr

/-- queryChain.js `processNaturalLanguageQuery(question, userId, userName)`:
translate (untrusted collaborator, modelled as a function parameter), apply
the Isolation Guard, execute, synthesize (opaque collaborator parameter). -/
def processNaturalLanguageQuery (store : Store)
    (translate : String → String → QueryDef)
    (synth : String → String → ExecResult → String)
    (question userId userName : String) : Except ExecError QueryResult :=
  let mongoQuery := injectUserId (translate userId question) userId
  match executeQuery store mongoQuery with
  | .error e => .error e
  | .ok res =>
    .ok { question := question, userId := userId, userName := userName,
          answer := synth userName question res,
          queryExecuted := mongoQuery, dataRetrieved := res }

/-- queryService.js `processQuery(question, userId, userName)`: cache lookup
under `userId:question`; on a hit replay the cached result with
`fromCache = true`; on a miss run the pipeline, store the result, and return
it with `fromCache = false`.  The returned triple carries the result, the
`fromCache` flag, and the cache store state after the request. -/
def processQuery (hash : List Char → List Char) (cfg : CacheConfig)
    (backend : CacheBackend QueryResult) (store : Store)
    (translate : String → String → QueryDef)
    (synth : String → String → ExecResult → String)
    (question userId userName : String) :
    Except ExecError (QueryResult × Bool × CacheBackend QueryResult) :=
  let cacheKey := orchestratorCacheKey userId question
  match getCachedResponse hash cfg backend cacheKey with
  | some cached => .ok (cached, true, backend)
  | none =>
    match processNaturalLanguageQuery store translate synth question userId userName with
    | .error e => .error e
    | .ok result => .ok (result, false, cacheResponse hash cfg backend cacheKey result)

/-! ## Request validation (routes/query.js POST /api/query) -/

/-- The request body as destructured by the route handler; each field is a JS
value that may be absent. -/
structure RequestBody where
  question : Option Value
  userId : Option Value
  userName : Option Value
deriving DecidableEq, Repr

/-- Outcome of the route handler before any external call: a 400 validation
error, or proceeding to `processQuery(question.trim(), userId, userName)`. -/
inductive RouteOutcome where
  | validationError (message : String)
  | proceed (question : String) (userId : Value) (userName : Value)
deriving DecidableEq, Repr

/-- JS `trim` on a String. -/
def jsTrimStr (s : String) : String :=
  ⟨jsTrim s.data⟩

/-- routes/query.js POST /api/query input validation, in source order:
`!question`, `!userId || !userName`, `typeof question !== string`,
`question.trim().length === 0`, `question.length > 500`; only then does the
handler invoke the orchestrator (its first external call). -/
def routeQuery (body : RequestBody) : RouteOutcome :=
  if !truthyOpt body.question then
    .validationError "Question is required"
  else if !truthyOpt body.userId || !truthyOpt body.userName then
    .validationError "userId and userName are required. Please select a user."
  else
    match body.question with
    | some (Value.vStr q) =>
      if (jsTrimStr q).length = 0 then
        .validationError "Question cannot be empty"
      else if q.length > 500 then
        .validationError "Question is too long (max 500 characters)"
      else
        .proceed (jsTrimStr q) (body.userId.getD Value.vNull) (body.userName.getD Value.vNull)
    | _ => .validationError "Question must be a string"

/-- The validation-failure conditions named by the spec, as a predicate on the
request body: question missing/falsy, tenant id or name missing/falsy,
question not a string, empty after trim, or longer than 500 characters. -/
def invalidBody (body : RequestBody) : Bool :=
  !truthyOpt body.question || !truthyOpt body.userId || !truthyOpt body.userName ||
  (match body.question with
   | some (Value.vStr q) => (jsTrimStr q).length = 0 || q.length > 500
   | _ => true)

/-! ## Fixture store (seed-style data for two tenants) -/

/-- A fixture document store with rows for two tenants, in the shape written
by seed.js. -/
def fixtureStore : Store := fun c =>
  if c = "users" then
    [[("_id", Value.vStr "tenant-a"), ("name", Value.vStr "Rahul Sharma")],
     [("_id", Value.vStr "tenant-b"), ("name", Value.vStr "Priya Patel")]]
  else if c = "bank_transactions" then
    [[("user_id", Value.vStr "tenant-a"), ("amount", Value.vNum 2500),
      ("category", Value.vStr "food")],
     [("user_id", Value.vStr "tenant-a"), ("amount", Value.vNum 1800),
      ("category", Value.vStr "food")],
     [("user_id", Value.vStr "tenant-b"), ("amount", Value.vNum 900),
      ("category", Value.vStr "travel")]]
  else if c = "mutual_fund_holdings" then
    [[("user_id", Value.vStr "tenant-a"), ("schemeName", Value.vStr "Bluechip"),
      ("currentValue", Value.vNum 50000)],
     [("user_id", Value.vStr "tenant-b"), ("schemeName", Value.vStr "Midcap"),
      ("currentValue", Value.vNum 30000)]]
  else if c = "equity_holdings" then
    [[("user_id", Value.vStr "tenant-a"), ("stockName", Value.vStr "Reliance"),
      ("quantity", Value.vNum 10)],
     [("user_id", Value.vStr "tenant-b"), ("stockName", Value.vStr "TCS"),
      ("quantity", Value.vNum 5)]]
  else []

/-! ## Auxiliary definitions for the verification development -/

deriving instance DecidableEq for Except

/-- The operations executeQuery dispatches on. -/
def supportedOperations : List String :=
  ["find", "findOne", "aggregate"]

/-- JS `s.replace trailing whitespace` half of trim: drop whitespace at the
right end only. -/
def trimRightWS (l : List Char) : List Char :=
  (l.reverse.dropWhile Char.isWhitespace).reverse

/-- The part of a normalized cache-key string contributed by the question:
lowercased, right-trimmed, whitespace-collapsed. -/
def suffixNormal (q : String) : List Char :=
  collapseWS false (trimRightWS (q.data.map Char.toLower))

/-- A tenant identifier already in normal form: nonempty, no whitespace,
lowercase (seed.js tenant ids are uuid v4 strings, which satisfy this). -/
def normalizedId (t : String) : Bool :=
  !(t == "") && t.data.all (fun c => !c.isWhitespace && (Char.toLower c == c))

/-- An adversarial find query carrying a foreign tenant id in its filter. -/
def forgedFind : QueryDef :=
  { collection := "bank_transactions", operation := "find",
    query := some [("user_id", Value.vStr "tenant-b")],
    projection := none, pipeline := none }

/-- An adversarial aggregate query whose first stage is a $match with a
foreign tenant id. -/
def forgedAgg : QueryDef :=
  { collection := "bank_transactions", operation := "aggregate", query := none,
    projection := none,
    pipeline := some [Stage.smatch [("user_id", Value.vStr "tenant-b")]] }

/-- An aggregate query on a tenant-owned collection with no pipeline field. -/
def nakedAgg : QueryDef :=
  { collection := "bank_transactions", operation := "aggregate", query := none,
    projection := none, pipeline := none }

/-- A find query whose filter has other fields and a falsy tenant field. -/
def falsyFind : QueryDef :=
  { collection := "bank_transactions", operation := "find",
    query := some [("category", Value.vStr "food"), ("user_id", Value.vStr "")],
    projection := none, pipeline := none }

/-- A query naming a collection outside the allow-list. -/
def qBadColl : QueryDef :=
  { collection := "secrets", operation := "find", query := none,
    projection := none, pipeline := none }

/-- An allow-listed collection with an unsupported operation. -/
def qBadOp : QueryDef :=
  { collection := "bank_transactions", operation := "updateMany", query := none,
    projection := none, pipeline := none }

/-- A plain find query with no filter at all. -/
def plainFind : QueryDef :=
  { collection := "bank_transactions", operation := "find", query := none,
    projection := none, pipeline := none }

/-- A deterministic stand-in for the translation collaborator. -/
def demoTranslate : String → String → QueryDef := fun _ _ => plainFind

/-- A deterministic stand-in for the synthesis collaborator. -/
def demoSynth : String → String → ExecResult → String := fun _ _ _ => "answer"

/-- A cache configuration with caching enabled. -/
def demoCfg : CacheConfig :=
  { enabled := true, ttl := 3600 }

/-- The rows of the fixture store owned by tenant-a in bank_transactions. -/
def demoRows : List Row :=
  [[("user_id", Value.vStr "tenant-a"), ("amount", Value.vNum 2500),
    ("category", Value.vStr "food")],
   [("user_id", Value.vStr "tenant-a"), ("amount", Value.vNum 1800),
    ("category", Value.vStr "food")]]

/-- A find query on the users collection. -/
def usersFind : QueryDef :=
  { collection := "users", operation := "find", query := none,
    projection := none, pipeline := none }

/-- An aggregate query with an empty (but present) pipeline array. -/
def aggEmptyPipe : QueryDef :=
  { collection := "bank_transactions", operation := "aggregate", query := none,
    projection := none, pipeline := some [] }

/-- A request body with an empty (falsy) question. -/
def badBody : RequestBody :=
  { question := some (Value.vStr ""), userId := some (Value.vStr "tenant-a"),
    userName := some (Value.vStr "Rahul Sharma") }

/-! ## Helper lemmas: objects, filters, pipelines -/

theorem objGet_mem {k : String} {v : Value} {f : Obj} (h : objGet k f = some v) :
    (k, v) ∈ f := by
  induction f with
  | nil => simp [objGet] at h
  | cons kv rest ih =>
    obtain ⟨k1, v1⟩ := kv
    by_cases hk : k1 = k
    · subst hk
      simp [objGet] at h
      subst h
      exact List.mem_cons_self _ _
    · simp [objGet, hk] at h
      exact List.mem_cons_of_mem _ (ih h)

theorem matchesFilter_objGet {f : Obj} {r : Row} (hm : matchesFilter f r = true)
    {k : String} {v : Value} (hkv : (k, v) ∈ f) : objGet k r = some v := by
  have h := List.all_eq_true.mp hm (k, v) hkv
  simpa using h

theorem mem_mergeUserId (f : Obj) (t : String) :
    ("user_id", Value.vStr t) ∈ mergeUserId f t :=
  List.mem_append_right _ (List.mem_singleton.mpr rfl)

theorem objGet_mergeUserId_self (f : Obj) (t : String) :
    objGet "user_id" (mergeUserId f t) = some (Value.vStr t) := by
  unfold mergeUserId
  induction f with
  | nil => simp [objGet]
  | cons kv rest ih =>
    obtain ⟨k1, v1⟩ := kv
    by_cases hk : k1 = "user_id"
    · simpa [List.filter_cons, hk] using ih
    · simpa [List.filter_cons, hk, objGet] using ih

theorem objGet_mergeUserId_other (f : Obj) (t k : String) (hk : k ≠ "user_id") :
    objGet k (mergeUserId f t) = objGet k f := by
  have hne : ¬("user_id" = k) := fun h => hk h.symm
  unfold mergeUserId
  induction f with
  | nil => simp [objGet, hne]
  | cons kv rest ih =>
    obtain ⟨k1, v1⟩ := kv
    by_cases h1 : k1 = "user_id"
    · subst h1
      simpa [List.filter_cons, objGet, hne] using ih
    · by_cases h2 : k1 = k
      · subst h2
        simp [List.filter_cons, h1, objGet]
      · simpa [List.filter_cons, h1, objGet, h2] using ih

theorem runStage_subset (rs : List Row) (s : Stage) {r : Row}
    (hr : r ∈ runStage rs s) : r ∈ rs := by
  cases s with
  | smatch f => exact List.mem_of_mem_filter hr
  | sother => exact hr

theorem runPipeline_subset {p : List Stage} {rs : List Row} {r : Row}
    (h : r ∈ runPipeline p rs) : r ∈ rs := by
  induction p generalizing rs with
  | nil => simpa [runPipeline] using h
  | cons s p ih =>
    have h1 : r ∈ runPipeline p (runStage rs s) := by
      simpa [runPipeline] using h
    exact runStage_subset rs s (ih h1)

theorem runPipeline_smatch {f : Obj} {p : List Stage} {rs : List Row} {r : Row}
    (h : r ∈ runPipeline (Stage.smatch f :: p) rs) : matchesFilter f r = true := by
  have h1 : r ∈ runPipeline p (runStage rs (Stage.smatch f)) := by
    simpa [runPipeline] using h
  exact List.of_mem_filter (runPipeline_subset h1)

theorem mem_of_head?_eq_some {α : Type} {l : List α} {a : α} (h : l.head? = some a) :
    a ∈ l := by
  cases l with
  | nil => simp at h
  | cons x xs =>
    simp at h
    subst h
    exact List.mem_cons_self _ _

/-! ## Helper lemmas: shape of the Isolation Guard -/

theorem guard_users {q : QueryDef} {t : String} (h : q.collection = "users") :
    injectUserId q t = q := by
  unfold injectUserId
  simp [h]

theorem guard_agg_none {q : QueryDef} {t : String} (hc : q.collection ≠ "users")
    (hop : q.operation = "aggregate") (hp : q.pipeline = none) :
    injectUserId q t = q := by
  unfold injectUserId
  simp [hc, hop, hp]

theorem guard_agg_nomatch {q : QueryDef} {t : String} {p : List Stage}
    (hc : q.collection ≠ "users") (hop : q.operation = "aggregate")
    (hp : q.pipeline = some p) (hm : hasUserMatch p = false) :
    injectUserId q t =
      { q with pipeline := some (Stage.smatch [("user_id", Value.vStr t)] :: p) } := by
  unfold injectUserId
  simp [hc, hop, hp, hm]

theorem guard_agg_match {q : QueryDef} {t : String} {p : List Stage}
    (hc : q.collection ≠ "users") (hop : q.operation = "aggregate")
    (hp : q.pipeline = some p) (hm : hasUserMatch p = true) :
    injectUserId q t = q := by
  unfold injectUserId
  simp [hc, hop, hp, hm]

theorem guard_findlike_none {q : QueryDef} {t : String} (hc : q.collection ≠ "users")
    (hop : q.operation = "find" ∨ q.operation = "findOne") (hq : q.query = none) :
    injectUserId q t = { q with query := some (mergeUserId [] t) } := by
  unfold injectUserId
  rcases hop with h | h <;> simp [hc, h, hq]

theorem guard_findlike_falsy {q : QueryDef} {t : String} {f : Obj}
    (hc : q.collection ≠ "users")
    (hop : q.operation = "find" ∨ q.operation = "findOne") (hq : q.query = some f)
    (hf : truthyOpt (objGet "user_id" f) = false) :
    injectUserId q t = { q with query := some (mergeUserId f t) } := by
  unfold injectUserId
  rcases hop with h | h <;> simp [hc, h, hq, hf]

theorem guard_findlike_truthy {q : QueryDef} {t : String} {f : Obj}
    (hc : q.collection ≠ "users")
    (hop : q.operation = "find" ∨ q.operation = "findOne") (hq : q.query = some f)
    (hf : truthyOpt (objGet "user_id" f) = true) :
    injectUserId q t = q := by
  unfold injectUserId
  rcases hop with h | h <;> simp [hc, h, hq, hf]

theorem guard_other_op {q : QueryDef} {t : String} (hc : q.collection ≠ "users")
    (h1 : q.operation ≠ "aggregate") (h2 : q.operation ≠ "find")
    (h3 : q.operation ≠ "findOne") : injectUserId q t = q := by
  unfold injectUserId
  simp [hc, h1, h2, h3]

/-! ## Helper lemmas: shape of executeQuery -/

theorem exec_find {store : Store} {q : QueryDef}
    (hca : q.collection ∈ allowedCollections) (hop : q.operation = "find") :
    executeQuery store q =
      .ok (.rows ((store q.collection).filter (matchesFilter (q.query.getD [])))) := by
  unfold executeQuery
  simp [hca, hop]

theorem exec_findOne {store : Store} {q : QueryDef}
    (hca : q.collection ∈ allowedCollections) (hop : q.operation = "findOne") :
    executeQuery store q =
      .ok (.row (((store q.collection).filter (matchesFilter (q.query.getD []))).head?)) := by
  unfold executeQuery
  simp [hca, hop]

theorem exec_agg {store : Store} {q : QueryDef}
    (hca : q.collection ∈ allowedCollections) (hop : q.operation = "aggregate") :
    executeQuery store q =
      .ok (.rows (runPipeline (q.pipeline.getD []) (store q.collection))) := by
  unfold executeQuery
  simp [hca, hop]

theorem exec_unsupported {store : Store} {q : QueryDef}
    (hca : q.collection ∈ allowedCollections) (h1 : q.operation ≠ "find")
    (h2 : q.operation ≠ "findOne") (h3 : q.operation ≠ "aggregate") :
    executeQuery store q = .error (.unsupportedOperation q.operation) := by
  unfold executeQuery
  simp [hca, h1, h2, h3]

theorem tenantOwned_sub_allowed {c : String} (h : c ∈ tenantOwnedCollections) :
    c ∈ allowedCollections := by
  simp [tenantOwnedCollections] at h
  rcases h with h | h | h <;> simp [allowedCollections, h]

theorem tenantOwned_ne_users {c : String} (h : c ∈ tenantOwnedCollections) :
    c ≠ "users" := by
  intro he
  rw [he] at h
  simp [tenantOwnedCollections] at h

/-! ## Claim C8 -/

/-- Claim C8 (confirmed): enforce is the identity function whenever
`collection == users`: for every StructuredQuery on the users collection and
every tenantId, `injectUserId` returns the query unchanged. -/
theorem c8_users_exemption (q : QueryDef) (t : String) (h : q.collection = "users") :
    injectUserId q t = q :=
  guard_users h

/-- Witness for C8 at a concrete users-collection query. -/
theorem c8_users_exemption_witness : injectUserId usersFind "tenant-a" = usersFind :=
  c8_users_exemption usersFind "tenant-a" rfl

/-! ## Claim C10 -/

/-- Claim C10 (confirmed): for an aggregate query on a tenant-owned collection
whose pipeline field is absent, the guard returns the query unchanged (the JS
`operation === aggregate && pipeline` test fails on a missing pipeline) and
executeQuery runs `pipeline || []`, an empty aggregation, returning every row
of the collection irrespective of tenant. -/
theorem c10_absent_pipeline_full_scan (store : Store) (q : QueryDef) (t : String)
    (hc : q.collection ∈ tenantOwnedCollections) (hop : q.operation = "aggregate")
    (hp : q.pipeline = none) :
    injectUserId q t = q ∧
    executeQuery store q = .ok (.rows (store q.collection)) := by
  refine ⟨guard_agg_none (tenantOwned_ne_users hc) hop hp, ?_⟩
  rw [exec_agg (tenantOwned_sub_allowed hc) hop, hp]
  simp [runPipeline]

/-- Witness for C10: the pipeline-less aggregate on the fixture store returns
both tenants' bank transactions. -/
theorem c10_absent_pipeline_full_scan_witness :
    injectUserId nakedAgg "tenant-a" = nakedAgg ∧
    executeQuery fixtureStore nakedAgg = .ok (.rows (fixtureStore "bank_transactions")) :=
  c10_absent_pipeline_full_scan fixtureStore nakedAgg "tenant-a" (by decide) rfl rfl

/-! ## Claim C7 -/

/-- Claim C7 (confirmed): executeQuery fails with InvalidCollection exactly
when the collection is outside the fixed allow-list, and — for allow-listed
collections, whatever component produced the query — fails with
UnsupportedOperation exactly when the operation is not find/findOne/aggregate.
(The spec writes the findOne operation as find_one.) -/
theorem c7_allowlist_enforcement (store : Store) (q : QueryDef) :
    ((∃ c, executeQuery store q = .error (.invalidCollection c)) ↔
      q.collection ∉ allowedCollections) ∧
    (q.collection ∈ allowedCollections →
      ((∃ op, executeQuery store q = .error (.unsupportedOperation op)) ↔
        q.operation ∉ supportedOperations)) := by
  by_cases hca : q.collection ∈ allowedCollections
  · by_cases h1 : q.operation = "find"
    · simp [exec_find hca h1, hca, h1, supportedOperations]
    · by_cases h2 : q.operation = "findOne"
      · simp [exec_findOne hca h2, hca, h2, supportedOperations]
      · by_cases h3 : q.operation = "aggregate"
        · simp [exec_agg hca h3, hca, h3, supportedOperations]
        · simp [exec_unsupported hca h1 h2 h3, hca, supportedOperations, h1, h2, h3]
  · unfold executeQuery
    simp [hca]

/-- Witness for C7: a non-allow-listed collection yields InvalidCollection;
an allow-listed collection with an unsupported operation yields
UnsupportedOperation. -/
theorem c7_allowlist_enforcement_witness :
    (∃ c, executeQuery fixtureStore qBadColl = .error (.invalidCollection c)) ∧
    (∃ op, executeQuery fixtureStore qBadOp = .error (.unsupportedOperation op)) :=
  ⟨(c7_allowlist_enforcement fixtureStore qBadColl).1.mpr (by decide),
   ((c7_allowlist_enforcement fixtureStore qBadOp).2 (by decide)).mpr (by decide)⟩

/-! ## Claim C2 -/

/-- Claim C2 counterexample: a fresh call of the guard does NOT overwrite a
truthy tenant-field value already present in a find filter — the forged
foreign tenant id `tenant-b` survives `injectUserId` for context tenant
`tenant-a` unchanged. -/
theorem c2_no_overwrite_counterexample :
    injectUserId forgedFind "tenant-a" = forgedFind ∧
    objGet "user_id" ((injectUserId forgedFind "tenant-a").query.getD []) =
      some (Value.vStr "tenant-b") ∧
    Value.vStr "tenant-b" ≠ Value.vStr "tenant-a" := by
  decide

/-- Claim C2 (amended): for find/findOne on a non-users collection the guard
sets the tenant field only when the filter is absent or its tenant field is
falsy — merging, preserving all other filter fields, and making the tenant
field the context tenant id; a present truthy tenant value (even a foreign
one) is left untouched. -/
theorem c2_guard_merge_only_when_absent (q : QueryDef) (t : String)
    (hc : q.collection ≠ "users")
    (hop : q.operation = "find" ∨ q.operation = "findOne") :
    (q.query = none →
      injectUserId q t = { q with query := some (mergeUserId [] t) }) ∧
    (∀ f, q.query = some f → truthyOpt (objGet "user_id" f) = false →
      injectUserId q t = { q with query := some (mergeUserId f t) } ∧
      objGet "user_id" (mergeUserId f t) = some (Value.vStr t) ∧
      ∀ k, k ≠ "user_id" → objGet k (mergeUserId f t) = objGet k f) ∧
    (∀ f, q.query = some f → truthyOpt (objGet "user_id" f) = true →
      injectUserId q t = q) :=
  ⟨fun hq => guard_findlike_none hc hop hq,
   fun f hq hf => ⟨guard_findlike_falsy hc hop hq hf,
                   objGet_mergeUserId_self f t,
                   fun k hk => objGet_mergeUserId_other f t k hk⟩,
   fun _ hq hf => guard_findlike_truthy hc hop hq hf⟩

/-- Witness for the amended C2 at a concrete filter with a falsy tenant field:
the guard merges, the tenant field becomes the context tenant id. -/
theorem c2_guard_merge_only_when_absent_witness :
    injectUserId falsyFind "tenant-a" =
      { falsyFind with query := some (mergeUserId
          [("category", Value.vStr "food"), ("user_id", Value.vStr "")] "tenant-a") } ∧
    objGet "user_id" (mergeUserId
        [("category", Value.vStr "food"), ("user_id", Value.vStr "")] "tenant-a") =
      some (Value.vStr "tenant-a") :=
  ⟨((c2_guard_merge_only_when_absent falsyFind "tenant-a" (by decide)
      (Or.inl rfl)).2.1 _ rfl (by decide)).1,
   ((c2_guard_merge_only_when_absent falsyFind "tenant-a" (by decide)
      (Or.inl rfl)).2.1 _ rfl (by decide)).2.1⟩

/-! ## Claim C3 -/

/-- Claim C3 counterexample: for an aggregate whose first stage is a $match
with a forged tenant value, the guard checks only that a truthy `user_id` is
present — it never compares the value with the context tenant id — so the
forged value `tenant-b` is carried over into the output's first stage. -/
theorem c3_forged_match_counterexample :
    injectUserId forgedAgg "tenant-a" = forgedAgg ∧
    (injectUserId forgedAgg "tenant-a").pipeline =
      some [Stage.smatch [("user_id", Value.vStr "tenant-b")]] ∧
    Value.vStr "tenant-b" ≠ Value.vStr "tenant-a" := by
  decide

/-- Claim C3 (amended): for aggregate on a non-users collection with a present
pipeline, the guard prepends a `$match {user_id: tenantId}` stage exactly when
the first stage is not a $match carrying a truthy tenant field; the output's
first stage is therefore always a $match with a truthy tenant field, but that
value is the context tenant id only when freshly prepended — an existing
truthy (possibly forged) value is carried over unchanged. -/
theorem c3_guard_prepend_without_truthy_match (q : QueryDef) (t : String)
    (p : List Stage) (hc : q.collection ≠ "users") (hop : q.operation = "aggregate")
    (hp : q.pipeline = some p) (ht : t ≠ "") :
    (hasUserMatch p = false →
      injectUserId q t =
        { q with pipeline := some (Stage.smatch [("user_id", Value.vStr t)] :: p) }) ∧
    (hasUserMatch p = true → injectUserId q t = q) ∧
    (∃ f rest, (injectUserId q t).pipeline = some (Stage.smatch f :: rest) ∧
      truthyOpt (objGet "user_id" f) = true) := by
  refine ⟨fun hm => guard_agg_nomatch hc hop hp hm,
          fun hm => guard_agg_match hc hop hp hm, ?_⟩
  rcases Bool.eq_false_or_eq_true (hasUserMatch p) with hm | hm
  · rw [guard_agg_match hc hop hp hm, hp]
    cases p with
    | nil => simp [hasUserMatch] at hm
    | cons s rest =>
      cases s with
      | smatch f => exact ⟨f, rest, rfl, by simpa [hasUserMatch] using hm⟩
      | sother => simp [hasUserMatch] at hm
  · rw [guard_agg_nomatch hc hop hp hm]
    refine ⟨[("user_id", Value.vStr t)], p, rfl, ?_⟩
    simp [truthyOpt, objGet, Value.truthy, ht]

/-- Witness for the amended C3: on an empty pipeline the guard prepends the
context tenant match stage. -/
theorem c3_guard_prepend_without_truthy_match_witness :
    injectUserId aggEmptyPipe "tenant-a" =
      { aggEmptyPipe with
        pipeline := some [Stage.smatch [("user_id", Value.vStr "tenant-a")]] } :=
  (c3_guard_prepend_without_truthy_match aggEmptyPipe "tenant-a" [] (by decide)
    rfl rfl (by decide)).1 rfl

/-! ## Claim C1 -/

/-- Claim C1 counterexample: the isolation invariant fails on an adversarial
query.  A find query forging `user_id: tenant-b`, enforced for tenant-a and
executed against the fixture store, returns tenant-b's row — a row whose
tenant field is not the requesting tenant's. -/
theorem c1_isolation_counterexample :
    executeQuery fixtureStore (injectUserId forgedFind "tenant-a") =
      .ok (.rows [[("user_id", Value.vStr "tenant-b"), ("amount", Value.vNum 900),
        ("category", Value.vStr "travel")]]) ∧
    objGet "user_id" [("user_id", Value.vStr "tenant-b"), ("amount", Value.vNum 900),
      ("category", Value.vStr "travel")] = some (Value.vStr "tenant-b") ∧
    Value.vStr "tenant-b" ≠ Value.vStr "tenant-a" := by
  decide

/-- Claim C1 (amended): the isolation invariant holds for every query on a
tenant-owned collection that does not already forge a truthy foreign tenant
value — i.e. any truthy `user_id` in a find/findOne filter, or in a first
$match stage of an aggregate pipeline, already equals the context tenant id —
and, for aggregates, whose pipeline field is present.  Under those conditions
every row returned by executing the enforced query carries
`user_id = tenantId`, for every store. -/
theorem c1_tenant_isolation_unforged (store : Store) (q : QueryDef) (t : String)
    (res : ExecResult)
    (hc : q.collection ∈ tenantOwnedCollections)
    (hfind : ∀ f, q.query = some f → truthyOpt (objGet "user_id" f) = true →
      objGet "user_id" f = some (Value.vStr t))
    (hpipe : q.operation = "aggregate" → q.pipeline ≠ none)
    (hmatch : ∀ f rest, q.pipeline = some (Stage.smatch f :: rest) →
      truthyOpt (objGet "user_id" f) = true → objGet "user_id" f = some (Value.vStr t))
    (hexec : executeQuery store (injectUserId q t) = .ok res) :
    ∀ r ∈ resultRows res, objGet "user_id" r = some (Value.vStr t) := by
  have hcu := tenantOwned_ne_users hc
  have hca := tenantOwned_sub_allowed hc
  intro r hr
  by_cases h1 : q.operation = "find"
  · cases hq : q.query with
    | none =>
      rw [guard_findlike_none hcu (Or.inl h1) hq,
        @exec_find store { q with query := some (mergeUserId [] t) } hca h1] at hexec
      injection hexec with h
      subst h
      have hm : matchesFilter (mergeUserId [] t) r = true :=
        List.of_mem_filter (by simpa [resultRows] using hr)
      exact matchesFilter_objGet hm (mem_mergeUserId [] t)
    | some f =>
      rcases Bool.eq_false_or_eq_true (truthyOpt (objGet "user_id" f)) with hf | hf
      · rw [guard_findlike_truthy hcu (Or.inl h1) hq hf, exec_find hca h1] at hexec
        injection hexec with h
        subst h
        have hm : matchesFilter f r = true :=
          List.of_mem_filter (by simpa [resultRows, hq] using hr)
        exact matchesFilter_objGet hm (objGet_mem (hfind f hq hf))
      · rw [guard_findlike_falsy hcu (Or.inl h1) hq hf,
          @exec_find store { q with query := some (mergeUserId f t) } hca h1] at hexec
        injection hexec with h
        subst h
        have hm : matchesFilter (mergeUserId f t) r = true :=
          List.of_mem_filter (by simpa [resultRows] using hr)
        exact matchesFilter_objGet hm (mem_mergeUserId f t)
  · by_cases h2 : q.operation = "findOne"
    · cases hq : q.query with
      | none =>
        rw [guard_findlike_none hcu (Or.inr h2) hq,
          @exec_findOne store { q with query := some (mergeUserId [] t) } hca h2] at hexec
        injection hexec with h
        subst h
        cases hL : ((store q.collection).filter
            (matchesFilter ((some (mergeUserId [] t)).getD []))).head? with
        | none =>
          rw [hL] at hr
          simp [resultRows] at hr
        | some r0 =>
          rw [hL] at hr
          simp [resultRows] at hr
          subst hr
          have hm : matchesFilter (mergeUserId [] t) r = true :=
            List.of_mem_filter (mem_of_head?_eq_some hL)
          exact matchesFilter_objGet hm (mem_mergeUserId [] t)
      | some f =>
        rcases Bool.eq_false_or_eq_true (truthyOpt (objGet "user_id" f)) with hf | hf
        · rw [guard_findlike_truthy hcu (Or.inr h2) hq hf, exec_findOne hca h2] at hexec
          injection hexec with h
          subst h
          rw [hq] at hr
          cases hL : ((store q.collection).filter
              (matchesFilter ((some f).getD []))).head? with
          | none =>
            rw [hL] at hr
            simp [resultRows] at hr
          | some r0 =>
            rw [hL] at hr
            simp [resultRows] at hr
            subst hr
            have hm : matchesFilter f r = true :=
              List.of_mem_filter (mem_of_head?_eq_some hL)
            exact matchesFilter_objGet hm (objGet_mem (hfind f hq hf))
        · rw [guard_findlike_falsy hcu (Or.inr h2) hq hf,
            @exec_findOne store { q with query := some (mergeUserId f t) } hca h2] at hexec
          injection hexec with h
          subst h
          cases hL : ((store q.collection).filter
              (matchesFilter ((some (mergeUserId f t)).getD []))).head? with
          | none =>
            rw [hL] at hr
            simp [resultRows] at hr
          | some r0 =>
            rw [hL] at hr
            simp [resultRows] at hr
            subst hr
            have hm : matchesFilter (mergeUserId f t) r = true :=
              List.of_mem_filter (mem_of_head?_eq_some hL)
            exact matchesFilter_objGet hm (mem_mergeUserId f t)
    · by_cases h3 : q.operation = "aggregate"
      · cases hq : q.pipeline with
        | none => exact absurd hq (hpipe h3)
        | some p =>
          rcases Bool.eq_false_or_eq_true (hasUserMatch p) with hm | hm
          · rw [guard_agg_match hcu h3 hq hm, exec_agg hca h3] at hexec
            injection hexec with h
            subst h
            rw [hq] at hr
            cases p with
            | nil => simp [hasUserMatch] at hm
            | cons s rest =>
              cases s with
              | sother => simp [hasUserMatch] at hm
              | smatch f =>
                have hft : truthyOpt (objGet "user_id" f) = true := by
                  simpa [hasUserMatch] using hm
                have hmf : matchesFilter f r = true :=
                  runPipeline_smatch (by simpa [resultRows] using hr)
                exact matchesFilter_objGet hmf (objGet_mem (hmatch f rest hq hft))
          · rw [guard_agg_nomatch hcu h3 hq hm,
              @exec_agg store { q with pipeline := some (Stage.smatch [("user_id", Value.vStr t)] :: p) } hca h3] at hexec
            injection hexec with h
            subst h
            have hmf : matchesFilter [("user_id", Value.vStr t)] r = true :=
              runPipeline_smatch (by simpa [resultRows] using hr)
            exact matchesFilter_objGet hmf (List.mem_singleton.mpr rfl)
      · rw [guard_other_op hcu h3 h1 h2, exec_unsupported hca h1 h2 h3] at hexec
        exact Except.noConfusion hexec

/-- Witness for the amended C1: a filterless find for tenant-a returns only
tenant-a rows; specialized to the first returned fixture row. -/
theorem c1_tenant_isolation_unforged_witness :
    objGet "user_id" [("user_id", Value.vStr "tenant-a"), ("amount", Value.vNum 2500),
      ("category", Value.vStr "food")] = some (Value.vStr "tenant-a") :=
  c1_tenant_isolation_unforged fixtureStore plainFind "tenant-a" (.rows demoRows)
    (by decide)
    (fun f hf => by simp [plainFind] at hf)
    (fun h => by simp [plainFind] at h)
    (fun f rest hf => by simp [plainFind] at hf)
    (by decide)
    [("user_id", Value.vStr "tenant-a"), ("amount", Value.vNum 2500),
      ("category", Value.vStr "food")]
    (by decide)

/-! ## Helper lemmas: cache-key normalization -/

theorem dropWhile_append_cons (p : Char → Bool) (a : List Char) (c : Char)
    (rest : List Char) (hc : p c = false) :
    (a ++ c :: rest).dropWhile p = a.dropWhile p ++ c :: rest := by
  induction a with
  | nil => simp [List.dropWhile_cons, hc]
  | cons x a ih =>
    by_cases hx : p x <;> simp [List.dropWhile_cons, hx, ih]

theorem collapseWS_cons_nonws (c : Char) (l : List Char)
    (hc : c.isWhitespace = false) (b : Bool) :
    collapseWS b (c :: l) = c :: collapseWS false l := by
  simp [collapseWS, hc]

theorem collapseWS_append_nonws (a : List Char) (ha : ∀ c ∈ a, c.isWhitespace = false)
    (r : List Char) : collapseWS false (a ++ r) = a ++ collapseWS false r := by
  induction a with
  | nil => rfl
  | cons c a ih =>
    have hc := ha c (List.mem_cons_self c a)
    have ha2 : ∀ x ∈ a, x.isWhitespace = false :=
      fun x hx => ha x (List.mem_cons_of_mem _ hx)
    simp [collapseWS, hc, ih ha2]

theorem collapseWS_congr_append (a : List Char) (b : Bool) (r1 r2 : List Char)
    (h : ∀ b2, collapseWS b2 r1 = collapseWS b2 r2) :
    collapseWS b (a ++ r1) = collapseWS b (a ++ r2) := by
  induction a generalizing b with
  | nil => exact h b
  | cons c a ih =>
    by_cases hc : c.isWhitespace
    · cases b <;> simp [collapseWS, hc, ih]
    · simp [collapseWS, hc, ih]

theorem map_toLower_fixed (l : List Char) (h : ∀ c ∈ l, Char.toLower c = c) :
    l.map Char.toLower = l := by
  induction l with
  | nil => rfl
  | cons c l ih =>
    simp [h c (List.mem_cons_self c l),
      ih (fun x hx => h x (List.mem_cons_of_mem _ hx))]

theorem normalizedId_spec {t : String} (h : normalizedId t = true) :
    t.data ≠ [] ∧ (∀ c ∈ t.data, c.isWhitespace = false) ∧
    (∀ c ∈ t.data, Char.toLower c = c) := by
  unfold normalizedId at h
  rw [Bool.and_eq_true] at h
  obtain ⟨h1, h2⟩ := h
  refine ⟨?_, ?_, ?_⟩
  · intro hd
    have ht : t = "" := String.ext hd
    subst ht
    simp at h1
  · intro c hc
    have hx := List.all_eq_true.mp h2 c hc
    rw [Bool.and_eq_true] at hx
    simpa using hx.1
  · intro c hc
    have hx := List.all_eq_true.mp h2 c hc
    rw [Bool.and_eq_true] at hx
    exact eq_of_beq hx.2

theorem jsTrim_nonws_front (a : List Char) (hne : a ≠ [])
    (hws : ∀ c ∈ a, c.isWhitespace = false) (w : List Char) :
    jsTrim (a ++ ':' :: w) = a ++ ':' :: trimRightWS w := by
  unfold jsTrim trimRightWS
  obtain ⟨c, a2, rfl⟩ := List.exists_cons_of_ne_nil hne
  have hc : c.isWhitespace = false := hws c (List.mem_cons_self _ _)
  rw [List.cons_append, List.dropWhile_cons]
  simp only [hc, Bool.false_eq_true, if_false]
  rw [show c :: (a2 ++ ':' :: w) = (c :: a2) ++ ':' :: w from rfl]
  rw [List.reverse_append, List.reverse_cons, List.append_assoc,
    List.singleton_append]
  rw [dropWhile_append_cons _ _ ':' _ (by decide)]
  rw [List.reverse_append, List.reverse_cons, List.reverse_reverse,
    List.append_assoc, List.singleton_append]

theorem jsTrim_append_colon (A wi : List Char)
    (hlast : wi.reverse.head?.any (fun c => !c.isWhitespace) = true) :
    jsTrim (A ++ ':' :: wi) = A.dropWhile Char.isWhitespace ++ ':' :: wi := by
  cases hrev : wi.reverse with
  | nil => rw [hrev] at hlast; simp at hlast
  | cons d zi =>
    rw [hrev] at hlast
    have hd : d.isWhitespace = false := by simpa using hlast
    unfold jsTrim
    rw [dropWhile_append_cons _ _ ':' wi (by decide)]
    have hnd : ((A.dropWhile Char.isWhitespace) ++ ':' :: wi).reverse.dropWhile
        Char.isWhitespace = ((A.dropWhile Char.isWhitespace) ++ ':' :: wi).reverse := by
      rw [List.reverse_append, List.reverse_cons, hrev]
      rw [List.cons_append, List.cons_append, List.dropWhile_cons]
      simp [hd]
    rw [hnd, List.reverse_reverse]

theorem normalize_concat_eqv (A w1 w2 : List Char)
    (h1 : w1.reverse.head?.any (fun c => !c.isWhitespace) = true)
    (h2 : w2.reverse.head?.any (fun c => !c.isWhitespace) = true)
    (hcol : collapseWS false w1 = collapseWS false w2) :
    collapseWS false (jsTrim (A ++ ':' :: w1)) =
      collapseWS false (jsTrim (A ++ ':' :: w2)) := by
  rw [jsTrim_append_colon A w1 h1, jsTrim_append_colon A w2 h2]
  exact collapseWS_congr_append _ false _ _ (fun b2 => by
    rw [collapseWS_cons_nonws ':' _ (by decide) b2,
      collapseWS_cons_nonws ':' _ (by decide) b2]
    exact congrArg (List.cons ':') hcol)

theorem normalize_key_split (t q : String) (ht : normalizedId t = true) :
    normalizeChars (orchestratorCacheKey t q).data = t.data ++ ':' :: suffixNormal q := by
  obtain ⟨hne, hws, hlow⟩ := normalizedId_spec ht
  have hdata : (orchestratorCacheKey t q).data = t.data ++ ':' :: q.data := by
    simp [orchestratorCacheKey, String.data_append]
  rw [hdata]
  unfold normalizeChars
  rw [List.map_append, map_toLower_fixed t.data hlow, List.map_cons,
    show Char.toLower ':' = ':' from by decide]
  rw [jsTrim_nonws_front t.data hne hws _]
  rw [collapseWS_append_nonws t.data hws _,
    collapseWS_cons_nonws ':' _ (by decide)]
  rfl

/-! ## Claim C4 -/

/-- Claim C4 counterexample: the derived cache key lowercases the concatenated
`userId:question` string before hashing, so the distinct tenant ids `A` and
`a` produce identical hash inputs and hence identical keys — shown with the
identity stand-in for the hash; the real md5 maps the equal inputs equally. -/
theorem c4_case_collision_counterexample :
    cacheKeyFor id "A" "how much did i spend on food" =
      cacheKeyFor id "a" "how much did i spend on food" ∧
    ("A" : String) ≠ "a" := by
  decide

/-- Claim C4 (amended): cache keys of distinct tenants never collide provided
the tenant ids are already in normal form — nonempty, lowercase, without
whitespace (true of the uuid tenant ids the system issues) — and the content
hash is collision-free on the reachable inputs. -/
theorem c4_cache_isolation_normalized (hash : List Char → List Char)
    (hinj : Function.Injective hash) (t1 t2 q : String)
    (h1 : normalizedId t1 = true) (h2 : normalizedId t2 = true) (hne : t1 ≠ t2) :
    cacheKeyFor hash t1 q ≠ cacheKeyFor hash t2 q := by
  intro he
  unfold cacheKeyFor generateCacheKey at he
  have he2 : hash (normalizeChars (orchestratorCacheKey t1 q).data) =
      hash (normalizeChars (orchestratorCacheKey t2 q).data) :=
    List.append_cancel_left he
  have he3 := hinj he2
  rw [normalize_key_split t1 q h1, normalize_key_split t2 q h2] at he3
  exact hne (String.ext (List.append_cancel_right he3))

/-- Witness for the amended C4 at two concrete normalized tenant ids. -/
theorem c4_cache_isolation_normalized_witness :
    cacheKeyFor id "tenant-a" "how much did i spend on food" ≠
      cacheKeyFor id "tenant-b" "how much did i spend on food" :=
  c4_cache_isolation_normalized id (fun _ _ h => h) "tenant-a" "tenant-b"
    "how much did i spend on food" (by decide) (by decide) (by decide)

/-! ## Claim C5 -/

/-- Claim C5 counterexample: the spec's example pair of questions does NOT
produce equal keys.  Normalization keeps punctuation (the first question's
trailing question mark survives) and the question is concatenated after the
tenant id before trimming (the first question's leading spaces collapse to
one space rather than disappearing), so the two hash inputs differ — shown
with the identity stand-in for the hash at a concrete tenant. -/
theorem c5_normalization_example_counterexample :
    cacheKeyFor id "tenant-a" "  How Much did I Spend  on Food?" ≠
      cacheKeyFor id "tenant-a" "how much did i spend on food" := by
  decide

/-- Claim C5 (amended): the cache key is a deterministic function of tenant id
and question, invariant under case differences and internal-whitespace runs in
the question: for every tenant and any hash, the key of
`How Much did I Spend  on Food?` equals the key of
`how much did i spend on food?` (same punctuation, no leading whitespace,
which the code's normalization does not remove). -/
theorem c5_cache_key_normalization (hash : List Char → List Char) (t : String) :
    cacheKeyFor hash t "How Much did I Spend  on Food?" =
      cacheKeyFor hash t "how much did i spend on food?" := by
  unfold cacheKeyFor generateCacheKey
  have key : normalizeChars (orchestratorCacheKey t "How Much did I Spend  on Food?").data =
      normalizeChars (orchestratorCacheKey t "how much did i spend on food?").data := by
    have e1 : (orchestratorCacheKey t "How Much did I Spend  on Food?").data =
        t.data ++ ':' :: "How Much did I Spend  on Food?".data := by
      simp [orchestratorCacheKey, String.data_append]
    have e2 : (orchestratorCacheKey t "how much did i spend on food?").data =
        t.data ++ ':' :: "how much did i spend on food?".data := by
      simp [orchestratorCacheKey, String.data_append]
    rw [e1, e2]
    unfold normalizeChars
    have hw1 : List.map Char.toLower (':' :: "How Much did I Spend  on Food?".data) =
        ':' :: "how much did i spend  on food?".data := by decide
    have hw2 : List.map Char.toLower (':' :: "how much did i spend on food?".data) =
        ':' :: "how much did i spend on food?".data := by decide
    rw [List.map_append, List.map_append, hw1, hw2]
    exact normalize_concat_eqv (t.data.map Char.toLower) _ _ (by decide) (by decide)
      (by decide)
  rw [key]

/-! ## Claim C6 -/

/-- Claim C6 (confirmed): when the cache store is unreachable (or caching is
disabled) the cache get returns absent, the cache put is a no-op raising no
error, and processQuery — given that the translated, guarded query executes
successfully — still returns a valid QueryResult with `fromCache = false`. -/
theorem c6_cache_fail_open (hash : List Char → List Char) (cfg : CacheConfig)
    (backend : CacheBackend QueryResult) (store : Store)
    (translate : String → String → QueryDef)
    (synth : String → String → ExecResult → String)
    (question userId userName : String) (res : ExecResult)
    (hoff : backend = CacheBackend.unreachable ∨ cfg.enabled = false)
    (hexec : executeQuery store (injectUserId (translate userId question) userId) = .ok res) :
    (∀ k, getCachedResponse hash cfg backend k = none) ∧
    (∀ k v, cacheResponse hash cfg backend k v = backend) ∧
    processQuery hash cfg backend store translate synth question userId userName =
      .ok ({ question := question, userId := userId, userName := userName,
             answer := synth userName question res,
             queryExecuted := injectUserId (translate userId question) userId,
             dataRetrieved := res }, false, backend) := by
  have hget : ∀ k, getCachedResponse hash cfg backend k = none := by
    intro k
    rcases hoff with h | h
    · subst h
      unfold getCachedResponse
      split <;> rfl
    · simp [getCachedResponse, h]
  have hput : ∀ k v, cacheResponse hash cfg backend k v = backend := by
    intro k v
    rcases hoff with h | h
    · subst h
      unfold cacheResponse
      split <;> rfl
    · simp [cacheResponse, h]
  refine ⟨hget, hput, ?_⟩
  simp only [processQuery, processNaturalLanguageQuery, hget, hexec, hput]

/-- Witness for C6: with Redis unreachable, a concrete request is served fresh
with `fromCache = false`. -/
theorem c6_cache_fail_open_witness :
    processQuery id demoCfg CacheBackend.unreachable fixtureStore demoTranslate demoSynth
      "How much did I spend on food?" "tenant-a" "Rahul Sharma" =
      .ok ({ question := "How much did I spend on food?", userId := "tenant-a",
             userName := "Rahul Sharma",
             answer := demoSynth "Rahul Sharma" "How much did I spend on food?"
               (.rows demoRows),
             queryExecuted := injectUserId
               (demoTranslate "tenant-a" "How much did I spend on food?") "tenant-a",
             dataRetrieved := .rows demoRows }, false, CacheBackend.unreachable) :=
  (c6_cache_fail_open id demoCfg CacheBackend.unreachable fixtureStore demoTranslate
    demoSynth "How much did I spend on food?" "tenant-a" "Rahul Sharma" (.rows demoRows)
    (Or.inl rfl) (by decide)).2.2

/-! ## Claim C9 -/

/-- Claim C9 (confirmed): the route handler rejects a request with a
ValidationError exactly when the input is invalid (question missing/falsy,
tenant id or name missing/falsy, question not a string, empty after trim, or
longer than 500 characters), and on invalid input it never reaches the
`proceed` outcome — the branch that makes the orchestrator call and hence
every cache / translation / document-store / synthesis call. -/
theorem c9_validation_rejects_before_external_calls (body : RequestBody) :
    ((∃ m, routeQuery body = .validationError m) ↔ invalidBody body = true) ∧
    (invalidBody body = true → ∀ q u n, routeQuery body ≠ .proceed q u n) := by
  rcases Bool.eq_false_or_eq_true (truthyOpt body.question) with hq | hq
  · rcases Bool.eq_false_or_eq_true (truthyOpt body.userId) with hu | hu
    · rcases Bool.eq_false_or_eq_true (truthyOpt body.userName) with hn | hn
      · cases hbq : body.question with
        | none => rw [hbq] at hq; simp [truthyOpt] at hq
        | some v =>
          rw [hbq] at hq
          cases v with
          | vStr s =>
            by_cases ht : (jsTrimStr s).length = 0
            · simp [routeQuery, invalidBody, hq, hu, hn, hbq, ht]
            · by_cases hl : s.length > 500
              · simp [routeQuery, invalidBody, hq, hu, hn, hbq, ht, hl]
              · simp [routeQuery, invalidBody, hq, hu, hn, hbq, ht, hl]
          | vNum n => simp [routeQuery, invalidBody, hq, hu, hn, hbq]
          | vBool b => simp [routeQuery, invalidBody, hq, hu, hn, hbq]
          | vNull => simp [truthyOpt, Value.truthy] at hq
      · simp [routeQuery, invalidBody, hq, hu, hn]
    · simp [routeQuery, invalidBody, hq, hu]
  · simp [routeQuery, invalidBody, hq]

/-- Witness for C9 at a concrete invalid body (empty question). -/
theorem c9_validation_rejects_before_external_calls_witness :
    ∃ m, routeQuery badBody = RouteOutcome.validationError m :=
  (c9_validation_rejects_before_external_calls badBody).1.mpr (by decide)

end Assignment
